import Mathlib

/-!
# AppControle — verification of the ledger core

Shallow embedding of the functional core of the AppControle personal-finance
application (`src/types.ts`, `src/components/TransactionForm.tsx`,
`src/services/googleSheetsService.ts`, `src/App.tsx`).  JavaScript numbers are
modelled by `JSNum` (a rational, or NaN); the JavaScript local timezone is
modelled as UTC; collections are Lean lists.  Where `src/App.tsx` bundles two
variants of the component, the dashboard variant (the one with the
`gastosDiversos` group, lines 551–582) is the one embedded; the other variant
differs only by omitting that group from `grouped` and summing `expenses`
directly off the unsorted list, which both yield the same totals.
-/

namespace AppControle

/-- Enum `TransactionType` from `src/types.ts`: RECEITA, GASTO_FIXO,
GASTO_CARTAO or GASTO_DIVERSO. -/
inductive TransactionType where
  | RECEITA
  | GASTO_FIXO
  | GASTO_CARTAO
  | GASTO_DIVERSO
deriving DecidableEq, Repr

/-- A JavaScript number restricted to what the ledger produces: either NaN or
an exact rational (binary-floating-point rounding is not modelled; no claim
depends on rounding). -/
inductive JSNum where
  | nan : JSNum
  | num : ℚ → JSNum
deriving DecidableEq, Repr

namespace JSNum

/-- JavaScript `+` on numbers: NaN is absorbing. -/
def add : JSNum → JSNum → JSNum
  | num a, num b => num (a + b)
  | _, _ => nan

/-- JavaScript `-` on numbers: NaN is absorbing. -/
def sub : JSNum → JSNum → JSNum
  | num a, num b => num (a - b)
  | _, _ => nan

theorem add_comm : ∀ a b : JSNum, add a b = add b a := by
  intro a b
  cases a <;> cases b <;> simp [add]
  exact Rat.add_comm _ _

theorem add_assoc : ∀ a b c : JSNum, add (add a b) c = add a (add b c) := by
  intro a b c
  cases a <;> cases b <;> cases c <;> simp [add]
  exact Rat.add_assoc _ _ _

theorem add_left_comm : ∀ a b c : JSNum, add a (add b c) = add b (add a c) := by
  intro a b c
  rw [← add_assoc, JSNum.add_comm a b, add_assoc]

theorem zero_add : ∀ a : JSNum, add (num 0) a = a := by
  intro a
  cases a <;> simp [add]

theorem add_zero : ∀ a : JSNum, add a (num 0) = a := by
  intro a
  cases a <;> simp [add]

end JSNum

/-- Value of a decimal-digit list, most significant first. -/
def digitsVal (cs : List Char) : Nat :=
  cs.foldl (fun n c => n * 10 + (c.toNat - 48)) 0

/-- JavaScript `parseFloat` restricted to plain decimal literals (optional
sign, digits, optional fractional part; exponents and `Infinity` are outside
the inputs the form can produce and are not modelled): the longest valid
prefix is parsed, and NaN results when no digit starts the number. -/
def parseFloat (s : String) : JSNum :=
  let cs := s.toList.dropWhile (fun c => c = ' ')
  let signed : ℚ × List Char :=
    match cs with
    | '-' :: rest => (-1, rest)
    | '+' :: rest => (1, rest)
    | _ => (1, cs)
  let intPart := signed.2.takeWhile Char.isDigit
  let rest := signed.2.dropWhile Char.isDigit
  let fracPart :=
    match rest with
    | '.' :: r => r.takeWhile Char.isDigit
    | _ => []
  if intPart.isEmpty && fracPart.isEmpty then JSNum.nan
  else
    JSNum.num (signed.1 *
      ((digitsVal intPart : ℚ) + (digitsVal fracPart : ℚ) / (10 ^ fracPart.length)))

/-- Milliseconds in a day. -/
def msPerDay : Int := 86400000

/-- Days since 1970-01-01 of a proleptic-Gregorian civil date (the arithmetic
behind the JavaScript `Date.UTC`); `/` is the Lean `Int` division, which floors
for the positive divisors used here. -/
def daysFromCivil (y m d : Int) : Int :=
  let yp := if m ≤ 2 then y - 1 else y
  let era := yp / 400
  let yoe := yp - era * 400
  let mp := (m + 9) % 12
  let doy := (153 * mp + 2) / 5 + d - 1
  let doe := yoe * 365 + yoe / 4 - yoe / 100 + doy
  era * 146097 + doe - 719468

/-- Split a character list at every dash (the shape of ISO dates), keeping
empty pieces like the JavaScript `split`. -/
def splitDash : List Char → List (List Char)
  | [] => [[]]
  | c :: rest =>
    let r := splitDash rest
    if c = '-' then [] :: r
    else
      match r with
      | [] => [[c]]
      | h :: t => (c :: h) :: t

/-- Numeric value of a nonempty all-digit character group. -/
def parseDigits (cs : List Char) : Option Nat :=
  if cs.isEmpty || !(cs.all Char.isDigit) then none else some (digitsVal cs)

/-- Model of `new Date(s).getTime()` for an ISO `YYYY-MM-DD` string (the only format
the date form control produces): UTC midnight of that day in milliseconds;
`none` models an invalid date (NaN time value; day-in-month overflow beyond
31 is the only overflow check modelled). -/
def parseDate (s : String) : Option Int :=
  match splitDash s.toList with
  | [ys, ms, ds] =>
    match parseDigits ys, parseDigits ms, parseDigits ds with
    | some y, some m, some d =>
      if ys.length = 4 ∧ 1 ≤ m ∧ m ≤ 12 ∧ 1 ≤ d ∧ d ≤ 31 then
        some (daysFromCivil (y : Int) (m : Int) (d : Int) * msPerDay)
      else none
    | _, _, _ => none
  | _ => none

/-- Structure `Transaction` from `src/types.ts`. -/
structure Transaction where
  id : String
  description : String
  amount : JSNum
  date : String
  type : TransactionType
  category : TransactionType
  isPaid : Bool
  dueDate : Option String
  cardName : Option String
  installments : Option String
deriving DecidableEq, Repr

/-- Local state of the form in `src/components/TransactionForm.tsx`
(`description`, `amount`, `date` text fields plus the `type` selector and the
card-specific fields). -/
structure FormState where
  description : String
  amount : String
  date : String
  type : TransactionType
  cardName : String
  installments : String

/-- The record built by the `onAdd` call inside `handleSubmit`
(`src/components/TransactionForm.tsx` lines 22–32) combined with the `id`
assignment done by `onAdd` in `src/App.tsx` (`{ ...data, id: ... }`); the
randomly generated id is passed in as `freshId`. -/
def buildTransaction (f : FormState) (freshId : String) : Transaction :=
  { id := freshId
    description := f.description
    amount := parseFloat f.amount
    date := f.date
    type := f.type
    category := f.type
    isPaid := f.type == TransactionType.RECEITA
    dueDate := some f.date
    cardName := if f.type == TransactionType.GASTO_CARTAO then some f.cardName else none
    installments := if f.type == TransactionType.GASTO_CARTAO then some f.installments else none }

/-- Function `handleSubmit` (`src/components/TransactionForm.tsx` lines 18–34) followed
by `onAdd` in `src/App.tsx`: bail out when any of the three required text
fields is the empty string (JavaScript falsiness on strings), otherwise
prepend the built record. -/
def handleSubmit (f : FormState) (freshId : String) (ts : List Transaction) :
    List Transaction :=
  if f.description == "" || f.amount == "" || f.date == "" then ts
  else buildTransaction f freshId :: ts

/-- Function `togglePaid` from `src/App.tsx`:
`transactions.map(t => t.id === id ? { ...t, isPaid: !t.isPaid } : t)`. -/
def togglePaid (id : String) (ts : List Transaction) : List Transaction :=
  ts.map (fun t => if t.id == id then { t with isPaid := !t.isPaid } else t)

/-- Function `deleteTransaction` from `src/App.tsx`: behind a `confirm(...)` gate,
`transactions.filter(t => t.id !== id)`. -/
def deleteTransaction (confirmed : Bool) (id : String) (ts : List Transaction) :
    List Transaction :=
  if confirmed then ts.filter (fun t => !(t.id == id)) else ts

/-- Outcome of the `fetch(url)` performed by `loadFromGoogleSheets`: a parsed
body, a non-ok HTTP response, or a thrown transport error. -/
inductive FetchResult where
  | success (body : List Transaction) : FetchResult
  | httpError : FetchResult
  | transportError : FetchResult

/-- Function `loadFromGoogleSheets` (`src/services/googleSheetsService.ts`
lines 21–29): a non-ok response throws `Falha ao carregar dados`, otherwise
the parsed body is returned verbatim; any failure is rethrown. -/
def loadFromGoogleSheets : FetchResult → Except String (List Transaction)
  | FetchResult.success body => Except.ok body
  | FetchResult.httpError => Except.error "Falha ao carregar dados"
  | FetchResult.transportError => Except.error "transport"

/-- Function `handleLoad` from `src/App.tsx`: requires a configured URL and a
user confirmation, then replaces the whole collection with the data of a
successful load and leaves it untouched when the load throws. -/
def handleLoad (sheetUrl : String) (confirmed : Bool) (resp : FetchResult)
    (ts : List Transaction) : List Transaction :=
  if sheetUrl == "" then ts
  else if !confirmed then ts
  else
    match loadFromGoogleSheets resp with
    | Except.ok data => data
    | Except.error _ => ts

/-- Truncation to midnight, `setHours(0, 0, 0, 0)` on a millisecond
timestamp (local timezone modelled as UTC). -/
def truncMidnight (t : Int) : Int :=
  (t / msPerDay) * msPerDay

/-- Predicate `isOverdue` from `src/App.tsx` lines 69–76 / 537–544: paid records are
never overdue; otherwise both the record date and "now" are truncated to
midnight and compared strictly.  An unparsable date gives a NaN time value,
and `NaN < x` is false in JavaScript. -/
def isOverdue (dateStr : String) (isPaid : Bool) (nowMs : Int) : Bool :=
  if isPaid then false
  else
    match parseDate dateStr with
    | some d => decide (truncMidnight d < truncMidnight nowMs)
    | none => false

/-- Sort key of `sortedTransactions`: `new Date(t.date).getTime()`; an
NaN key of an invalid date makes the comparator result unspecified, which any
fixed default preserves up to permutation (no claim depends on the relative
order of invalid dates). -/
def dateKey (t : Transaction) : Int :=
  match parseDate t.date with
  | some d => d
  | none => 0

/-- List `sortedTransactions` from `src/App.tsx`: stable sort ascending by date. -/
def sortedTransactions (ts : List Transaction) : List Transaction :=
  List.insertionSort (fun a b => dateKey a ≤ dateKey b) ts

/-- Result shape of `grouped` from `src/App.tsx` (dashboard variant, lines 551–564). -/
structure Grouped where
  receitas : List Transaction
  gastosFixos : List Transaction
  gastosCartoes : List Transaction
  gastosDiversos : List Transaction
  cartoesDetalhe : List (String × List Transaction)

/-- Grouping `grouped` from `src/App.tsx` lines 551–564: filters of the sorted list by
`type` (income additionally reversed) and one bucket per configured card
name, filtering every record by its `cardName`. -/
def grouped (ts : List Transaction) : Grouped :=
  let s := sortedTransactions ts
  { receitas := (s.filter (fun t => t.type == TransactionType.RECEITA)).reverse
    gastosFixos := s.filter (fun t => t.type == TransactionType.GASTO_FIXO)
    gastosCartoes := s.filter (fun t => t.type == TransactionType.GASTO_CARTAO)
    gastosDiversos := s.filter (fun t => t.type == TransactionType.GASTO_DIVERSO)
    cartoesDetalhe :=
      [("BaneseCard", s.filter (fun t => t.cardName == some "BaneseCard")),
       ("Nubank Davi", s.filter (fun t => t.cardName == some "Nubank Davi")),
       ("Torra", s.filter (fun t => t.cardName == some "Torra")),
       ("Iti Tuy", s.filter (fun t => t.cardName == some "Iti Tuy"))] }

/-- Sum `reduce((a, b) => a + b.amount, 0)` over a record list. -/
def sumAmounts (l : List Transaction) : JSNum :=
  l.foldl (fun a b => a.add b.amount) (JSNum.num 0)

/-- The record of `totals` (`src/App.tsx` lines 566–582). -/
structure Totals where
  income : JSNum
  expenses : JSNum
  balance : JSNum
  fixedPending : JSNum
  cardsPending : JSNum
deriving DecidableEq, Repr

/-- Aggregate `totals` from `src/App.tsx` lines 566–582. -/
def totals (ts : List Transaction) : Totals :=
  let g := grouped ts
  let income := sumAmounts g.receitas
  let fixed := sumAmounts g.gastosFixos
  let cards := sumAmounts g.gastosCartoes
  let divers := sumAmounts g.gastosDiversos
  let fixedPending := sumAmounts (g.gastosFixos.filter (fun t => !t.isPaid))
  let cardsPending := sumAmounts (g.gastosCartoes.filter (fun t => !t.isPaid))
  { income := income
    expenses := (fixed.add cards).add divers
    balance := income.sub ((fixed.add cards).add divers)
    fixedPending := fixedPending
    cardsPending := cardsPending }

/-- The lookup used to state the add/lookup round trip: first record whose id
matches. -/
def lookupById (id : String) (ts : List Transaction) : Option Transaction :=
  ts.find? (fun t => t.id == id)


/-! ## Helper lemmas -/

/-- A toggle whose id matches no record is the identity. -/
theorem togglePaid_eq_of_not_mem (id : String) (ts : List Transaction)
    (h : ∀ t ∈ ts, t.id ≠ id) : togglePaid id ts = ts := by
  induction ts with
  | nil => rfl
  | cons t l ih =>
    have ht : (t.id == id) = false := by
      have := h t (List.mem_cons_self t l)
      simp [this]
    have hl : togglePaid id l = l := ih (fun x hx => h x (List.mem_cons_of_mem t hx))
    simp only [togglePaid, List.map_cons, ht, Bool.false_eq_true, if_false]
    simp only [togglePaid] at hl
    rw [hl]

/-! ## C7 -/

/-- C7: togglePaid is an involution — applying it twice with the same id
returns the collection to its exact original state; in particular the
matching record recovers its original `isPaid` value. -/
theorem togglePaid_involutive (id : String) (ts : List Transaction) :
    togglePaid id (togglePaid id ts) = ts := by
  induction ts with
  | nil => rfl
  | cons t l ih =>
    simp only [togglePaid, List.map_cons] at ih ⊢
    rw [ih]
    by_cases h : (t.id == id) = true
    · simp [h]
    · simp [h]

/-! ## C8 -/

/-- C8: deleteTransaction is idempotent (a second identical call is a no-op
and, being a total function, raises nothing), and both deleteTransaction and
togglePaid leave the collection unchanged when no record carries the id. -/
theorem deleteTransaction_idempotent_and_unknown_id_noop (c : Bool) (id : String)
    (ts : List Transaction) :
    deleteTransaction c id (deleteTransaction c id ts) = deleteTransaction c id ts ∧
    ((∀ t ∈ ts, t.id ≠ id) →
      deleteTransaction c id ts = ts ∧ togglePaid id ts = ts) := by
  constructor
  · cases c with
    | false => rfl
    | true =>
      simp only [deleteTransaction, if_true, List.filter_filter]
      rw [List.filter_congr]
      intro x _
      simp
  · intro h
    constructor
    · cases c with
      | false => rfl
      | true =>
        simp only [deleteTransaction, if_true]
        rw [List.filter_eq_self.mpr]
        intro a ha
        simp [h a ha]
    · exact togglePaid_eq_of_not_mem id ts h

/-- C8 witness: a concrete double delete and unknown-id no-ops. -/
theorem deleteTransaction_idempotent_and_unknown_id_noop_witness :
    (∀ t ∈ ([] : List Transaction), t.id ≠ "zz") ∧
    (deleteTransaction true "zz" (deleteTransaction true "zz" []) =
        deleteTransaction true "zz" [] ∧
      (deleteTransaction true "zz" [] = [] ∧ togglePaid "zz" [] = [])) := by
  have h0 : ∀ t ∈ ([] : List Transaction), t.id ≠ "zz" := by
    intro t ht
    cases ht
  have h := deleteTransaction_idempotent_and_unknown_id_noop true "zz" []
  exact ⟨h0, h.1, h.2 h0⟩

/-! ## C10 -/

/-- C10: togglePaid preserves length and order, leaves every non-matching
record untouched, and on the matching position changes nothing but `isPaid`
(all other fields, including `dueDate`, are preserved). -/
theorem togglePaid_frame (id : String) (ts : List Transaction) :
    (togglePaid id ts).length = ts.length ∧
    ∀ (i : Nat) (t : Transaction), ts[i]? = some t →
      ∃ u : Transaction, (togglePaid id ts)[i]? = some u ∧
        u.id = t.id ∧ u.description = t.description ∧ u.amount = t.amount ∧
        u.date = t.date ∧ u.type = t.type ∧ u.category = t.category ∧
        u.dueDate = t.dueDate ∧ u.cardName = t.cardName ∧
        u.installments = t.installments ∧
        (t.id ≠ id → u = t) ∧ (t.id = id → u.isPaid = !t.isPaid) := by
  constructor
  · simp [togglePaid]
  · intro i t ht
    by_cases h : t.id = id
    · refine ⟨{ t with isPaid := !t.isPaid }, ?_, rfl, rfl, rfl, rfl, rfl, rfl,
        rfl, rfl, rfl, fun hne => absurd h hne, fun _ => rfl⟩
      simp [togglePaid, List.getElem?_map, ht, h]
    · refine ⟨t, ?_, rfl, rfl, rfl, rfl, rfl, rfl, rfl, rfl, rfl,
        fun _ => rfl, fun heq => absurd heq h⟩
      simp [togglePaid, List.getElem?_map, ht, h]

/-- Sample fixed expense used in witnesses. -/
def rentTx : Transaction :=
  { id := "r1", description := "Aluguel", amount := JSNum.num 1500,
    date := "2024-01-10", type := TransactionType.GASTO_FIXO,
    category := TransactionType.GASTO_FIXO, isPaid := false,
    dueDate := some "2024-01-10", cardName := none, installments := none }

/-- C10 witness: the frame property evaluated on a one-record collection
whose id matches. -/
theorem togglePaid_frame_witness :
    [rentTx][0]? = some rentTx ∧
    ∃ u, (togglePaid "r1" [rentTx])[0]? = some u ∧
      u.id = rentTx.id ∧ u.description = rentTx.description ∧
      u.amount = rentTx.amount ∧ u.date = rentTx.date ∧ u.type = rentTx.type ∧
      u.category = rentTx.category ∧ u.dueDate = rentTx.dueDate ∧
      u.cardName = rentTx.cardName ∧ u.installments = rentTx.installments ∧
      (rentTx.id ≠ "r1" → u = rentTx) ∧
      (rentTx.id = "r1" → u.isPaid = !rentTx.isPaid) :=
  ⟨rfl, (togglePaid_frame "r1" [rentTx]).2 0 rentTx rfl⟩

/-! ## C5 -/

/-- C5: pull is atomic — with a configured endpoint and user confirmation, a
failing load (non-ok HTTP status or transport error) leaves the local
collection exactly unchanged, while a successful load replaces it verbatim
with the parsed body, which the loader returns without inspecting. -/
theorem handleLoad_atomic (url : String) (c : Bool) (resp : FetchResult)
    (ts : List Transaction) (hurl : url ≠ "") (hc : c = true) :
    (∀ e, loadFromGoogleSheets resp = Except.error e →
      handleLoad url c resp ts = ts) ∧
    (∀ data, loadFromGoogleSheets resp = Except.ok data →
      handleLoad url c resp ts = data) ∧
    (∀ body, loadFromGoogleSheets (FetchResult.success body) = Except.ok body) := by
  have hu : (url == "") = false := by simp [hurl]
  refine ⟨?_, ?_, fun body => rfl⟩
  · intro e he
    simp [handleLoad, hu, hc, he]
  · intro data hd
    simp [handleLoad, hu, hc, hd]

/-- C5 witness: a failed and a successful load against the endpoint
`"https://script.example"` with local state `[rentTx]`. -/
theorem handleLoad_atomic_witness :
    ("https://script.example" ≠ "" ∧
      loadFromGoogleSheets FetchResult.httpError =
        Except.error "Falha ao carregar dados" ∧
      handleLoad "https://script.example" true FetchResult.httpError [rentTx] =
        [rentTx]) ∧
    (loadFromGoogleSheets (FetchResult.success []) = Except.ok [] ∧
      handleLoad "https://script.example" true (FetchResult.success []) [rentTx] =
        []) := by
  constructor
  · refine ⟨by decide, rfl, ?_⟩
    exact (handleLoad_atomic "https://script.example" true FetchResult.httpError
      [rentTx] (by decide) rfl).1 "Falha ao carregar dados" rfl
  · refine ⟨rfl, ?_⟩
    exact (handleLoad_atomic "https://script.example" true (FetchResult.success [])
      [rentTx] (by decide) rfl).2.1 [] rfl

/-! ## C1 -/

/-- C1 counterexample: with a non-empty description, date, and a non-empty
amount string that does not parse as a number, `handleSubmit` does create a
record (with NaN amount) — the collection does not stay unchanged, refuting
the claim for the amount-does-not-parse case. -/
theorem handleSubmit_nonparsing_amount_creates_record :
    parseFloat "abc" = JSNum.nan ∧
    (handleSubmit
        { description := "x", amount := "abc", date := "2024-01-01",
          type := TransactionType.GASTO_FIXO, cardName := "",
          installments := "" }
        "id1" []).length = 1 := by
  constructor
  · decide
  · rfl

/-- C1 amended: add is a silent no-op exactly when the description, amount
string, or date is empty; for any other input exactly one record is
prepended, even when the amount does not parse (the record then carries a NaN
amount). -/
theorem handleSubmit_empty_field_guard (f : FormState) (freshId : String)
    (ts : List Transaction) :
    ((f.description = "" ∨ f.amount = "" ∨ f.date = "") →
      handleSubmit f freshId ts = ts) ∧
    (f.description ≠ "" → f.amount ≠ "" → f.date ≠ "" →
      handleSubmit f freshId ts = buildTransaction f freshId :: ts) := by
  constructor
  · intro h
    rcases h with h | h | h <;> simp [handleSubmit, h]
  · intro h1 h2 h3
    simp [handleSubmit, h1, h2, h3]

/-- C1 witness: the guard evaluated on an empty-description input and on a
complete input. -/
theorem handleSubmit_empty_field_guard_witness :
    (handleSubmit
        { description := "", amount := "5", date := "2024-01-01",
          type := TransactionType.GASTO_FIXO, cardName := "",
          installments := "" }
        "id1" [] = []) ∧
    (handleSubmit
        { description := "Conta", amount := "5", date := "2024-01-01",
          type := TransactionType.GASTO_FIXO, cardName := "",
          installments := "" }
        "id2" [] =
      [buildTransaction
        { description := "Conta", amount := "5", date := "2024-01-01",
          type := TransactionType.GASTO_FIXO, cardName := "",
          installments := "" }
        "id2"]) := by
  constructor
  · exact (handleSubmit_empty_field_guard _ "id1" []).1 (Or.inl rfl)
  · exact (handleSubmit_empty_field_guard _ "id2" []).2
      (by decide) (by decide) (by decide)

/-! ## C2 -/

/-- C2: for a valid input (non-empty description, amount string and date,
amount parsing to a number) and a fresh id, add prepends exactly one record
whose id is the fresh one, with category equal to type, isPaid true iff the
type is RECEITA, card fields absent unless the type is GASTO_CARTAO, and a
lookup by that id returns a record whose description, amount, date and type
equal the input. -/
theorem handleSubmit_valid_creates_and_lookup (f : FormState) (freshId : String)
    (ts : List Transaction)
    (hd : f.description ≠ "") (ha : f.amount ≠ "") (hdt : f.date ≠ "")
    (hparse : parseFloat f.amount ≠ JSNum.nan)
    (hfresh : ∀ t ∈ ts, t.id ≠ freshId) :
    handleSubmit f freshId ts = buildTransaction f freshId :: ts ∧
    lookupById freshId (handleSubmit f freshId ts) =
      some (buildTransaction f freshId) ∧
    (buildTransaction f freshId).id = freshId ∧
    (∀ t ∈ ts, t.id ≠ (buildTransaction f freshId).id) ∧
    (buildTransaction f freshId).description = f.description ∧
    (buildTransaction f freshId).amount = parseFloat f.amount ∧
    (buildTransaction f freshId).date = f.date ∧
    (buildTransaction f freshId).type = f.type ∧
    (buildTransaction f freshId).category = f.type ∧
    ((buildTransaction f freshId).isPaid = true ↔ f.type = TransactionType.RECEITA) ∧
    (f.type ≠ TransactionType.GASTO_CARTAO →
      (buildTransaction f freshId).cardName = none ∧
      (buildTransaction f freshId).installments = none) := by
  have hsub : handleSubmit f freshId ts = buildTransaction f freshId :: ts := by
    simp [handleSubmit, hd, ha, hdt]
  refine ⟨hsub, ?_, rfl, hfresh, rfl, rfl, rfl, rfl, rfl, ?_, ?_⟩
  · rw [hsub]
    simp [lookupById, List.find?_cons, buildTransaction]
  · simp [buildTransaction]
  · intro hne
    simp [buildTransaction, hne]

/-- C2 witness: a valid income input added to the empty collection. -/
theorem handleSubmit_valid_creates_and_lookup_witness :
    ("Salario" ≠ "" ∧ "5000" ≠ "" ∧ "2024-01-05" ≠ "" ∧
      parseFloat "5000" ≠ JSNum.nan ∧
      (∀ t ∈ ([] : List Transaction), t.id ≠ "id9")) ∧
    (handleSubmit
        { description := "Salario", amount := "5000", date := "2024-01-05",
          type := TransactionType.RECEITA, cardName := "", installments := "" }
        "id9" [] =
      buildTransaction
        { description := "Salario", amount := "5000", date := "2024-01-05",
          type := TransactionType.RECEITA, cardName := "", installments := "" }
        "id9" :: [] ∧
      lookupById "id9"
        (handleSubmit
          { description := "Salario", amount := "5000", date := "2024-01-05",
            type := TransactionType.RECEITA, cardName := "", installments := "" }
          "id9" []) =
        some (buildTransaction
          { description := "Salario", amount := "5000", date := "2024-01-05",
            type := TransactionType.RECEITA, cardName := "", installments := "" }
          "id9")) := by
  have hnil : ∀ t ∈ ([] : List Transaction), t.id ≠ "id9" := by
    intro t ht
    cases ht
  have h := handleSubmit_valid_creates_and_lookup
    { description := "Salario", amount := "5000", date := "2024-01-05",
      type := TransactionType.RECEITA, cardName := "", installments := "" }
    "id9" [] (by decide) (by decide) (by decide) (by decide) hnil
  exact ⟨⟨by decide, by decide, by decide, by decide, hnil⟩, h.1, h.2.1⟩

/-! ## C4 -/

/-- Truncation to midnight is monotone. -/
theorem truncMidnight_mono {a b : Int} (h : a ≤ b) :
    truncMidnight a ≤ truncMidnight b := by
  unfold truncMidnight
  have hd : (0 : Int) < msPerDay := by decide
  exact mul_le_mul_of_nonneg_right (Int.ediv_le_ediv hd h) (le_of_lt hd)

/-- C4: a record is overdue iff it is unpaid and its date truncated to
midnight is strictly before the current date truncated to midnight; a paid
record is never overdue regardless of date, and an unpaid record dated today
or later (same or later truncated day, in particular any raw timestamp not
before now) is never overdue. -/
theorem isOverdue_characterization (s : String) (p : Bool) (now : Int) :
    (p = true → isOverdue s p now = false) ∧
    (∀ d : Int, parseDate s = some d →
      (isOverdue s false now = true ↔ truncMidnight d < truncMidnight now)) ∧
    (∀ d : Int, parseDate s = some d → truncMidnight now ≤ truncMidnight d →
      isOverdue s false now = false) ∧
    (∀ d : Int, parseDate s = some d → now ≤ d →
      isOverdue s false now = false) := by
  refine ⟨?_, ?_, ?_, ?_⟩
  · intro hp
    simp [isOverdue, hp]
  · intro d hd
    simp [isOverdue, hd]
  · intro d hd hle
    simp only [isOverdue, if_false, hd, decide_eq_false_iff_not, Bool.false_eq_true]
    exact not_lt.mpr hle
  · intro d hd hle
    simp only [isOverdue, if_false, hd, decide_eq_false_iff_not, Bool.false_eq_true]
    exact not_lt.mpr (truncMidnight_mono hle)

/-- C4 witness: the characterization evaluated on the date 2024-01-10 with a
current time inside 2024-01-15. -/
theorem isOverdue_characterization_witness :
    parseDate "2024-01-10" = some 1704844800000 ∧
    (isOverdue "2024-01-10" false 1705330800000 = true ↔
      truncMidnight 1704844800000 < truncMidnight 1705330800000) ∧
    isOverdue "2024-01-10" true 1705330800000 = false := by
  refine ⟨by decide, ?_, ?_⟩
  · exact (isOverdue_characterization "2024-01-10" false 1705330800000).2.1
      1704844800000 (by decide)
  · exact (isOverdue_characterization "2024-01-10" true 1705330800000).1 rfl

/-! ## Amount-sum infrastructure -/

/-- Rearrangement used for a new fixed expense at the head of the sums. -/
theorem JSNum.add_head_left (x a b c : JSNum) :
    ((x.add a).add b).add c = x.add ((a.add b).add c) := by
  rw [JSNum.add_assoc x a b, JSNum.add_assoc x (a.add b) c]

/-- Rearrangement used for a new card expense at the head of the sums. -/
theorem JSNum.add_head_mid (x a b c : JSNum) :
    (a.add (x.add b)).add c = x.add ((a.add b).add c) := by
  rw [JSNum.add_left_comm a x b, JSNum.add_assoc x (a.add b) c]

/-- Rearrangement used for a new misc expense at the head of the sums. -/
theorem JSNum.add_head_right (x a b c : JSNum) :
    (a.add b).add (x.add c) = x.add ((a.add b).add c) :=
  JSNum.add_left_comm (a.add b) x c

/-- Shifting the accumulator out of the amount fold. -/
theorem sumAmounts_foldl_shift (l : List Transaction) (a b : JSNum) :
    l.foldl (fun x t => x.add t.amount) (a.add b) =
      a.add (l.foldl (fun x t => x.add t.amount) b) := by
  induction l generalizing b with
  | nil => rfl
  | cons t l ih =>
    simp only [List.foldl_cons]
    rw [JSNum.add_assoc]
    exact ih (b.add t.amount)

/-- Unfolding one record out of the amount sum. -/
theorem sumAmounts_cons (t : Transaction) (l : List Transaction) :
    sumAmounts (t :: l) = t.amount.add (sumAmounts l) :=
  calc sumAmounts (t :: l)
      = l.foldl (fun x u => x.add u.amount) ((JSNum.num 0).add t.amount) := rfl
    _ = l.foldl (fun x u => x.add u.amount) (t.amount.add (JSNum.num 0)) := by
        rw [JSNum.zero_add, JSNum.add_zero]
    _ = t.amount.add (sumAmounts l) := sumAmounts_foldl_shift l t.amount (JSNum.num 0)

/-- The amount sum is invariant under permutation. -/
theorem sumAmounts_perm {l l' : List Transaction} (h : l.Perm l') :
    sumAmounts l = sumAmounts l' := by
  induction h with
  | nil => rfl
  | cons x _ ih => rw [sumAmounts_cons, sumAmounts_cons, ih]
  | swap x y l =>
    rw [sumAmounts_cons, sumAmounts_cons, sumAmounts_cons, sumAmounts_cons,
      JSNum.add_left_comm]
  | trans _ _ ih1 ih2 => rw [ih1, ih2]

/-- Sorting first does not change a filtered amount sum. -/
theorem sumAmounts_filter_sorted (P : Transaction → Bool) (ts : List Transaction) :
    sumAmounts ((sortedTransactions ts).filter P) = sumAmounts (ts.filter P) :=
  sumAmounts_perm ((List.perm_insertionSort _ ts).filter P)

/-- Reversal does not change an amount sum. -/
theorem sumAmounts_reverse (l : List Transaction) :
    sumAmounts l.reverse = sumAmounts l :=
  sumAmounts_perm (List.reverse_perm l)

/-- The three expense-group sums add up to the sum over all non-income
records. -/
theorem sum_three_expense_groups (ts : List Transaction) :
    ((sumAmounts (ts.filter (fun t => t.type == TransactionType.GASTO_FIXO))).add
        (sumAmounts (ts.filter (fun t => t.type == TransactionType.GASTO_CARTAO)))).add
      (sumAmounts (ts.filter (fun t => t.type == TransactionType.GASTO_DIVERSO))) =
    sumAmounts (ts.filter (fun t => !(t.type == TransactionType.RECEITA))) := by
  induction ts with
  | nil =>
    show ((JSNum.num 0).add (JSNum.num 0)).add (JSNum.num 0) = JSNum.num 0
    rw [JSNum.zero_add, JSNum.zero_add]
  | cons t l ih =>
    cases h : t.type with
    | RECEITA =>
      simp only [List.filter_cons, h]
      simpa using ih
    | GASTO_FIXO =>
      simp only [List.filter_cons, h]
      simp
      rw [sumAmounts_cons, sumAmounts_cons, JSNum.add_head_left, ih]
    | GASTO_CARTAO =>
      simp only [List.filter_cons, h]
      simp
      rw [sumAmounts_cons, sumAmounts_cons, JSNum.add_head_mid, ih]
    | GASTO_DIVERSO =>
      simp only [List.filter_cons, h]
      simp
      rw [sumAmounts_cons, sumAmounts_cons, JSNum.add_head_right, ih]

/-! ## C3 -/

/-- C3: income is the amount sum of the RECEITA records, expenses the amount
sum of all non-income records, balance is income minus expenses for every
snapshot, and the balance of the empty collection is 0. -/
theorem totals_sum_identity (ts : List Transaction) :
    (totals ts).income =
      sumAmounts (ts.filter (fun t => t.type == TransactionType.RECEITA)) ∧
    (totals ts).expenses =
      sumAmounts (ts.filter (fun t => !(t.type == TransactionType.RECEITA))) ∧
    (totals ts).balance = (totals ts).income.sub (totals ts).expenses ∧
    (totals ([] : List Transaction)).balance = JSNum.num 0 := by
  refine ⟨?_, ?_, rfl, ?_⟩
  · show sumAmounts (((sortedTransactions ts).filter
        (fun t => t.type == TransactionType.RECEITA)).reverse) = _
    rw [sumAmounts_reverse, sumAmounts_filter_sorted]
  · show ((sumAmounts ((sortedTransactions ts).filter
          (fun t => t.type == TransactionType.GASTO_FIXO))).add
        (sumAmounts ((sortedTransactions ts).filter
          (fun t => t.type == TransactionType.GASTO_CARTAO)))).add
      (sumAmounts ((sortedTransactions ts).filter
          (fun t => t.type == TransactionType.GASTO_DIVERSO))) = _
    rw [sumAmounts_filter_sorted, sumAmounts_filter_sorted, sumAmounts_filter_sorted,
      sum_three_expense_groups]
  · show (JSNum.num 0).sub (((JSNum.num 0).add (JSNum.num 0)).add (JSNum.num 0)) =
      JSNum.num 0
    rw [JSNum.zero_add, JSNum.zero_add]
    simp [JSNum.sub]

/-! ## C6 -/

/-- Membership is preserved by the date sort. -/
theorem mem_sortedTransactions {r : Transaction} {ts : List Transaction} :
    r ∈ sortedTransactions ts ↔ r ∈ ts :=
  (List.perm_insertionSort _ ts).mem_iff

/-- C6: grouping partitions the snapshot by type into the income, fixed,
card and misc groups; the per-card buckets are exactly one per configured
card name, each holding exactly the records whose cardName equals that name;
a record whose cardName is not a configured name is in no bucket; and under
the data-model invariant that only card expenses carry a cardName, every
bucket holds only card expenses. -/
theorem grouped_partition (ts : List Transaction) :
    (∀ r : Transaction, r ∈ (grouped ts).receitas ↔
        r ∈ ts ∧ r.type = TransactionType.RECEITA) ∧
    (∀ r : Transaction, r ∈ (grouped ts).gastosFixos ↔
        r ∈ ts ∧ r.type = TransactionType.GASTO_FIXO) ∧
    (∀ r : Transaction, r ∈ (grouped ts).gastosCartoes ↔
        r ∈ ts ∧ r.type = TransactionType.GASTO_CARTAO) ∧
    (∀ r : Transaction, r ∈ (grouped ts).gastosDiversos ↔
        r ∈ ts ∧ r.type = TransactionType.GASTO_DIVERSO) ∧
    (grouped ts).cartoesDetalhe.map Prod.fst =
      ["BaneseCard", "Nubank Davi", "Torra", "Iti Tuy"] ∧
    (∀ (c : String) (l : List Transaction), (c, l) ∈ (grouped ts).cartoesDetalhe →
      ∀ r : Transaction, r ∈ l ↔ r ∈ ts ∧ r.cardName = some c) ∧
    (∀ r : Transaction,
      r.cardName ∉
        [some "BaneseCard", some "Nubank Davi", some "Torra", some "Iti Tuy"] →
      ∀ (c : String) (l : List Transaction),
        (c, l) ∈ (grouped ts).cartoesDetalhe → r ∉ l) ∧
    ((∀ t ∈ ts, t.cardName ≠ none → t.type = TransactionType.GASTO_CARTAO) →
      ∀ (c : String) (l : List Transaction),
        (c, l) ∈ (grouped ts).cartoesDetalhe → ∀ r ∈ l,
          r.type = TransactionType.GASTO_CARTAO) := by
  have hbucket : ∀ (c : String) (l : List Transaction),
      (c, l) ∈ (grouped ts).cartoesDetalhe →
      ∀ r : Transaction, r ∈ l ↔ r ∈ ts ∧ r.cardName = some c := by
    intro c l hm r
    simp only [grouped, List.mem_cons, List.not_mem_nil, or_false,
      Prod.mk.injEq] at hm
    rcases hm with ⟨rfl, rfl⟩ | ⟨rfl, rfl⟩ | ⟨rfl, rfl⟩ | ⟨rfl, rfl⟩ <;>
      simp [List.mem_filter, mem_sortedTransactions]
  refine ⟨?_, ?_, ?_, ?_, rfl, hbucket, ?_, ?_⟩
  · intro r
    simp [grouped, List.mem_filter, mem_sortedTransactions]
  · intro r
    simp [grouped, List.mem_filter, mem_sortedTransactions]
  · intro r
    simp [grouped, List.mem_filter, mem_sortedTransactions]
  · intro r
    simp [grouped, List.mem_filter, mem_sortedTransactions]
  · intro r hnc c l hm hr
    have h := (hbucket c l hm r).mp hr
    simp only [grouped, List.mem_cons, List.not_mem_nil, or_false,
      Prod.mk.injEq] at hm
    simp only [List.mem_cons, List.not_mem_nil, or_false, not_or] at hnc
    rcases hm with ⟨rfl, _⟩ | ⟨rfl, _⟩ | ⟨rfl, _⟩ | ⟨rfl, _⟩
    · exact hnc.1 h.2
    · exact hnc.2.1 h.2
    · exact hnc.2.2.1 h.2
    · exact hnc.2.2.2 h.2
  · intro hinv c l hm r hr
    have h := (hbucket c l hm r).mp hr
    refine hinv r h.1 ?_
    rw [h.2]
    exact Option.some_ne_none c

/-- Sample card expense used in witnesses. -/
def torraTx : Transaction :=
  { id := "t1", description := "Compra", amount := JSNum.num 10,
    date := "2024-01-05", type := TransactionType.GASTO_CARTAO,
    category := TransactionType.GASTO_CARTAO, isPaid := false,
    dueDate := some "2024-01-05", cardName := some "Torra",
    installments := some "1/1" }

/-- C6 witness: the Torra bucket of a one-record snapshot, characterized by
the partition theorem. -/
theorem grouped_partition_witness :
    (("Torra", (sortedTransactions [torraTx]).filter
        (fun t => t.cardName == some "Torra")) ∈
      (grouped [torraTx]).cartoesDetalhe) ∧
    (torraTx ∈ (sortedTransactions [torraTx]).filter
        (fun t => t.cardName == some "Torra") ↔
      torraTx ∈ [torraTx] ∧ torraTx.cardName = some "Torra") := by
  have hm : ("Torra", (sortedTransactions [torraTx]).filter
      (fun t => t.cardName == some "Torra")) ∈
      (grouped [torraTx]).cartoesDetalhe :=
    List.Mem.tail _ (List.Mem.tail _ (List.Mem.head _))
  exact ⟨hm, (grouped_partition [torraTx]).2.2.2.2.2.1 "Torra" _ hm torraTx⟩

/-! ## C9 infrastructure -/

/-- Unfolded characterization of the income total. -/
theorem totals_income_eq (l : List Transaction) :
    (totals l).income =
      sumAmounts (l.filter (fun t => t.type == TransactionType.RECEITA)) := by
  show sumAmounts (((sortedTransactions l).filter
      (fun t => t.type == TransactionType.RECEITA)).reverse) = _
  rw [sumAmounts_reverse, sumAmounts_filter_sorted]

/-- Unfolded characterization of the expenses total. -/
theorem totals_expenses_eq (l : List Transaction) :
    (totals l).expenses =
      sumAmounts (l.filter (fun t => !(t.type == TransactionType.RECEITA))) := by
  show ((sumAmounts ((sortedTransactions l).filter
        (fun t => t.type == TransactionType.GASTO_FIXO))).add
      (sumAmounts ((sortedTransactions l).filter
        (fun t => t.type == TransactionType.GASTO_CARTAO)))).add
    (sumAmounts ((sortedTransactions l).filter
        (fun t => t.type == TransactionType.GASTO_DIVERSO))) = _
  rw [sumAmounts_filter_sorted, sumAmounts_filter_sorted, sumAmounts_filter_sorted,
    sum_three_expense_groups]

/-- Unfolded characterization of the pending-fixed total. -/
theorem totals_fixedPending_eq (l : List Transaction) :
    (totals l).fixedPending =
      sumAmounts (l.filter
        (fun t => !t.isPaid && (t.type == TransactionType.GASTO_FIXO))) := by
  show sumAmounts (((sortedTransactions l).filter
      (fun t => t.type == TransactionType.GASTO_FIXO)).filter
        (fun t => !t.isPaid)) = _
  rw [List.filter_filter]
  exact sumAmounts_filter_sorted _ l

/-- Toggling does not change a filtered amount sum when the predicate ignores
the paid flag. -/
theorem sumAmounts_filter_toggle (id : String) (P : Transaction → Bool)
    (hP : ∀ t : Transaction, P { t with isPaid := !t.isPaid } = P t)
    (ts : List Transaction) :
    sumAmounts ((togglePaid id ts).filter P) = sumAmounts (ts.filter P) := by
  induction ts with
  | nil => rfl
  | cons t l ih =>
    simp only [togglePaid, List.map_cons]
    rw [List.filter_cons, List.filter_cons]
    simp only [togglePaid] at ih
    by_cases h : (t.id == id) = true
    · rw [if_pos h, hP t]
      by_cases hpt : P t = true
      · rw [if_pos hpt, if_pos hpt, sumAmounts_cons, sumAmounts_cons, ih]
      · rw [if_neg hpt, if_neg hpt]
        exact ih
    · rw [if_neg h]
      by_cases hpt : P t = true
      · rw [if_pos hpt, if_pos hpt, sumAmounts_cons, sumAmounts_cons, ih]
      · rw [if_neg hpt, if_neg hpt]
        exact ih

/-- With distinct ids, toggling an unpaid record that the predicate accepts
before but not after exactly erases it from the filtered view. -/
theorem filter_togglePaid_erase (ts : List Transaction) (r : Transaction)
    (P : Transaction → Bool)
    (hnd : (ts.map (fun t => t.id)).Nodup) (hr : r ∈ ts)
    (hpr : P r = true) (hptoggled : P { r with isPaid := !r.isPaid } = false) :
    (togglePaid r.id ts).filter P = (ts.filter P).erase r := by
  induction ts with
  | nil => cases hr
  | cons t l ih =>
    have hnin : t.id ∉ l.map (fun t => t.id) := (List.nodup_cons.mp hnd).1
    have hnd' : (l.map (fun t => t.id)).Nodup := (List.nodup_cons.mp hnd).2
    obtain heq | hrl := List.mem_cons.mp hr
    · subst heq
      have hl : togglePaid r.id l = l := by
        apply togglePaid_eq_of_not_mem
        intro x hx hx2
        exact hnin (hx2 ▸ List.mem_map_of_mem (fun t => t.id) hx)
      simp only [togglePaid, List.map_cons]
      rw [show (if (r.id == r.id) = true then { r with isPaid := !r.isPaid } else r)
          = { r with isPaid := !r.isPaid } from if_pos (by simp)]
      simp only [togglePaid] at hl
      rw [hl, List.filter_cons, List.filter_cons, hptoggled, hpr]
      rw [if_neg (by simp), if_pos rfl, List.erase_cons_head]
    · have hne : t.id ≠ r.id := by
        intro heq2
        exact hnin (heq2 ▸ List.mem_map_of_mem (fun t => t.id) hrl)
      have htr : ¬ (t == r) = true := by
        simp only [beq_iff_eq]
        intro heq3
        exact hne (congrArg Transaction.id heq3)
      simp only [togglePaid, List.map_cons]
      rw [show (if (t.id == r.id) = true then { t with isPaid := !t.isPaid } else t)
          = t from if_neg (by simp [hne])]
      rw [List.filter_cons, List.filter_cons]
      have ih2 := ih hnd' hrl
      simp only [togglePaid] at ih2
      by_cases hpt : P t = true
      · rw [if_pos hpt, if_pos hpt, List.erase_cons_tail htr, ih2]
      · rw [if_neg hpt, if_neg hpt]
        exact ih2

/-- A duplicate-free list whose members all equal a member is the singleton. -/
theorem eq_single_of_forall_eq {α : Type} {l : List α} (hnd : l.Nodup)
    (a : α) (ha : a ∈ l) (h : ∀ x ∈ l, x = a) : l = [a] := by
  cases l with
  | nil => cases ha
  | cons b t =>
    have hb : b = a := h b (List.mem_cons_self b t)
    subst hb
    cases t with
    | nil => rfl
    | cons c t2 =>
      have hc : c = b := h c (List.mem_cons_of_mem b (List.mem_cons_self c t2))
      subst hc
      exact absurd (List.mem_cons_self c t2)
        ((List.nodup_cons.mp hnd).1 ∘ fun hm => hm)

/-! ## C9 -/

/-- C9: toggling an unpaid fixed-expense record (in a collection with
distinct ids) leaves income and expenses unchanged, removes exactly that
amount from fixedPending, and drives fixedPending to 0 when the record was
the only unpaid fixed expense. -/
theorem togglePaid_fixed_totals_frame (ts : List Transaction) (r : Transaction)
    (hnd : (ts.map (fun t => t.id)).Nodup) (hr : r ∈ ts)
    (hty : r.type = TransactionType.GASTO_FIXO) (hp : r.isPaid = false) :
    (totals (togglePaid r.id ts)).income = (totals ts).income ∧
    (totals (togglePaid r.id ts)).expenses = (totals ts).expenses ∧
    (totals ts).fixedPending =
      r.amount.add ((totals (togglePaid r.id ts)).fixedPending) ∧
    ((∀ t ∈ ts, t.type = TransactionType.GASTO_FIXO → t.isPaid = false → t = r) →
      (totals (togglePaid r.id ts)).fixedPending = JSNum.num 0) := by
  have hpr : (fun t : Transaction =>
      !t.isPaid && (t.type == TransactionType.GASTO_FIXO)) r = true := by
    simp [hp, hty]
  have htog : (fun t : Transaction =>
      !t.isPaid && (t.type == TransactionType.GASTO_FIXO))
      { r with isPaid := !r.isPaid } = false := by
    simp [hp]
  have herase := filter_togglePaid_erase ts r
    (fun t => !t.isPaid && (t.type == TransactionType.GASTO_FIXO))
    hnd hr hpr htog
  refine ⟨?_, ?_, ?_, ?_⟩
  · rw [totals_income_eq, totals_income_eq]
    exact sumAmounts_filter_toggle r.id
      (fun t => t.type == TransactionType.RECEITA) (fun t => rfl) ts
  · rw [totals_expenses_eq, totals_expenses_eq]
    exact sumAmounts_filter_toggle r.id
      (fun t => !(t.type == TransactionType.RECEITA)) (fun t => rfl) ts
  · rw [totals_fixedPending_eq, totals_fixedPending_eq, herase]
    have hmem : r ∈ ts.filter
        (fun t => !t.isPaid && (t.type == TransactionType.GASTO_FIXO)) :=
      List.mem_filter.mpr ⟨hr, hpr⟩
    rw [sumAmounts_perm (List.perm_cons_erase hmem), sumAmounts_cons]
  · intro honly
    rw [totals_fixedPending_eq, herase]
    have hsingle : ts.filter
        (fun t => !t.isPaid && (t.type == TransactionType.GASTO_FIXO)) = [r] := by
      apply eq_single_of_forall_eq ((List.Nodup.of_map _ hnd).filter _) r
        (List.mem_filter.mpr ⟨hr, hpr⟩)
      intro x hx
      obtain ⟨hxm, hxP⟩ := List.mem_filter.mp hx
      rw [Bool.and_eq_true] at hxP
      obtain ⟨hxu, hxt⟩ := hxP
      exact honly x hxm (beq_iff_eq.mp hxt) (by
        cases hb : x.isPaid
        · rfl
        · rw [hb] at hxu
          cases hxu)
    rw [hsingle, List.erase_cons_head]
    rfl

/-- Sample income record used in witnesses. -/
def salaryTx : Transaction :=
  { id := "s1", description := "Salario", amount := JSNum.num 5000,
    date := "2024-01-05", type := TransactionType.RECEITA,
    category := TransactionType.RECEITA, isPaid := true,
    dueDate := some "2024-01-05", cardName := none, installments := none }

/-- C9 witness: paying the single unpaid Rent record of the Salary + Rent
snapshot. -/
theorem togglePaid_fixed_totals_frame_witness :
    (([salaryTx, rentTx].map (fun t => t.id)).Nodup ∧
      rentTx ∈ [salaryTx, rentTx] ∧
      rentTx.type = TransactionType.GASTO_FIXO ∧ rentTx.isPaid = false) ∧
    ((totals (togglePaid "r1" [salaryTx, rentTx])).income =
        (totals [salaryTx, rentTx]).income ∧
      (totals (togglePaid "r1" [salaryTx, rentTx])).expenses =
        (totals [salaryTx, rentTx]).expenses ∧
      (totals [salaryTx, rentTx]).fixedPending =
        rentTx.amount.add
          ((totals (togglePaid "r1" [salaryTx, rentTx])).fixedPending) ∧
      (totals (togglePaid "r1" [salaryTx, rentTx])).fixedPending =
        JSNum.num 0) := by
  have hmem : rentTx ∈ [salaryTx, rentTx] := List.Mem.tail _ (List.Mem.head _)
  have hnd : (([salaryTx, rentTx]).map (fun t => t.id)).Nodup := by decide
  have honly : ∀ t ∈ [salaryTx, rentTx], t.type = TransactionType.GASTO_FIXO →
      t.isPaid = false → t = rentTx := by
    intro t ht h1 _
    obtain h | h := List.mem_cons.mp ht
    · subst h
      exact absurd h1 (by decide)
    · obtain h2 | h2 := List.mem_cons.mp h
      · exact h2
      · cases h2
  have h := togglePaid_fixed_totals_frame [salaryTx, rentTx] rentTx hnd hmem rfl rfl
  exact ⟨⟨hnd, hmem, rfl, rfl⟩, h.1, h.2.1, h.2.2.1, h.2.2.2 honly⟩

end AppControle
